import Mathlib

/-!
# Verification of the nope-net/node-sdk webhook verifier and client

A shallow embedding of the SDK's webhook signature module (`Webhook.verify`,
`Webhook.sign`, `WebhookSignatureError`), the client-side input validation of
`NopeClient.evaluate` / `NopeClient.screen`, and the HTTP status dispatch of
`NopeClient.handleResponse`.

JavaScript strings are modelled as Lean `String`; JS numbers that hold
integers as `Int` (exact, the claims never exercise double rounding);
`parseFloat` results as exact rationals (`Rat`).  The platform builtins the
source calls (`parseInt`, `String(n)`, `JSON.parse`, `JSON.stringify`,
`crypto.createHmac('sha256', …)`, `crypto.timingSafeEqual`, `Buffer.from`,
`Headers.get`) are modelled as executable Lean functions; SHA-256 and HMAC
are implemented in full (FIPS 180-4 / RFC 2104) rather than stubbed.
`Date.now()` is passed in as an explicit `nowSec : Int` parameter.
-/

namespace NopeSdk

/-! ## JS primitives: characters, digits, decimal integers -/

/-- Decimal digit test, `'0' ≤ c ≤ '9'`. -/
def isDigitC (c : Char) : Bool := 48 ≤ c.toNat && c.toNat ≤ 57

/-- JS whitespace as trimmed by `parseInt` / `parseFloat` (WhiteSpace ∪
LineTerminator; the common code points). -/
def isJsWs (c : Char) : Bool :=
  c.toNat = 9 || c.toNat = 10 || c.toNat = 11 || c.toNat = 12 || c.toNat = 13 ||
  c.toNat = 32 || c.toNat = 160 || c.toNat = 0x2028 || c.toNat = 0x2029 || c.toNat = 0xFEFF

/-- The character for a single decimal digit value (`d < 10`). -/
def digitChar (d : Nat) : Char := Char.ofNat (48 + d)

/-- Accumulate the value of the longest leading run of decimal digits,
Horner style, stopping at the first non-digit (as JS `parseInt` does). -/
def digitsAcc : List Char → Nat → Nat
  | [], acc => acc
  | c :: cs, acc => if isDigitC c then digitsAcc cs (acc * 10 + (c.toNat - 48)) else acc

/-- Longest leading digit run as a number; `none` when the first character is
not a digit (JS `parseInt` yields `NaN` there). -/
def parseDigits : List Char → Option Nat
  | [] => none
  | c :: cs => if isDigitC c then some (digitsAcc (c :: cs) 0) else none

/-- Model of JS `parseInt(s, 10)`: trim leading whitespace, optional sign,
then the value of the longest leading digit run; `NaN` (here `none`) when no
digit follows.  Trailing garbage is ignored — `parseInt("100x", 10) = 100`.
(JS doubles lose precision above 2^53; modelled exactly.) -/
def jsParseInt (s : String) : Option Int :=
  let cs := s.data.dropWhile isJsWs
  match cs with
  | [] => none
  | c :: rest =>
    if c = '-' then (parseDigits rest).map (fun n => -Int.ofNat n)
    else if c = '+' then (parseDigits rest).map Int.ofNat
    else (parseDigits cs).map Int.ofNat

/-- Big-endian decimal digit characters of `n`; fuel-based so that it both
computes by kernel reduction and is easy to reason about (`fuel > n`). -/
def natDecAux : Nat → Nat → List Char
  | 0, _ => []
  | fuel + 1, n =>
    if n < 10 then [digitChar n]
    else natDecAux fuel (n / 10) ++ [digitChar (n % 10)]

/-- Decimal digit characters of a natural number. -/
def natDec (n : Nat) : List Char := natDecAux (n + 1) n

/-- Model of JS `String(n)` for an integral number: standard decimal form,
with a leading `'-'` for negatives (JS prints integral doubles this way). -/
def jsIntToString (i : Int) : String :=
  if i < 0 then ⟨'-' :: natDec i.natAbs⟩ else ⟨natDec i.natAbs⟩

/-! ## SHA-256 (FIPS 180-4) and HMAC (RFC 2104), over byte lists

Bytes are `Nat`s below 256, words are `Nat`s below 2^32; overflow is explicit
`% 2^32`.  This models node's `crypto.createHmac('sha256', key)`. -/

/-- Truncate to a 32-bit word. -/
def w32 (n : Nat) : Nat := n % 4294967296

/-- Right rotation of a 32-bit word by `k` bits. -/
def rotr32 (k x : Nat) : Nat := w32 ((x >>> k) ||| (x <<< (32 - k)))

/-- FIPS 180-4 Σ₀. -/
def bigSigma0 (x : Nat) : Nat := (rotr32 2 x) ^^^ (rotr32 13 x) ^^^ (rotr32 22 x)

/-- FIPS 180-4 Σ₁. -/
def bigSigma1 (x : Nat) : Nat := (rotr32 6 x) ^^^ (rotr32 11 x) ^^^ (rotr32 25 x)

/-- FIPS 180-4 σ₀. -/
def smallSigma0 (x : Nat) : Nat := (rotr32 7 x) ^^^ (rotr32 18 x) ^^^ (x >>> 3)

/-- FIPS 180-4 σ₁. -/
def smallSigma1 (x : Nat) : Nat := (rotr32 17 x) ^^^ (rotr32 19 x) ^^^ (x >>> 10)

/-- FIPS 180-4 Ch(e,f,g). -/
def chf (e f g : Nat) : Nat := (e &&& f) ^^^ ((e ^^^ 4294967295) &&& g)

/-- FIPS 180-4 Maj(a,b,c). -/
def majf (a b c : Nat) : Nat := (a &&& b) ^^^ (a &&& c) ^^^ (b &&& c)

/-- The 64 SHA-256 round constants. -/
def sha256K : List Nat :=
  [1116352408, 1899447441, 3049323471, 3921009573, 961987163, 1508970993,
   2453635748, 2870763221, 3624381080, 310598401, 607225278, 1426881987,
   1925078388, 2162078206, 2614888103, 3248222580, 3835390401, 4022224774,
   264347078, 604807628, 770255983, 1249150122, 1555081692, 1996064986,
   2554220882, 2821834349, 2952996808, 3210313671, 3336571891, 3584528711,
   113926993, 338241895, 666307205, 773529912, 1294757372, 1396182291,
   1695183700, 1986661051, 2177026350, 2456956037, 2730485921, 2820302411,
   3259730800, 3345764771, 3516065817, 3600352804, 4094571909, 275423344,
   430227734, 506948616, 659060556, 883997877, 958139571, 1322822218,
   1537002063, 1747873779, 1955562222, 2024104815, 2227730452, 2361852424,
   2428436474, 2756734187, 3204031479, 3329325298]

/-- SHA-256 initial hash value. -/
def sha256H0 : List Nat :=
  [1779033703, 3144134277, 1013904242, 2773480762,
   1359893119, 2600822924, 528734635, 1541459225]

/-- `n` bytes of `v`, big-endian. -/
def beBytes : Nat → Nat → List Nat
  | 0, _ => []
  | n + 1, v => beBytes n (v >>> 8) ++ [v % 256]

/-- Group bytes into 32-bit words, big-endian. -/
def beWords : List Nat → List Nat
  | b0 :: b1 :: b2 :: b3 :: rest => (((b0 * 256 + b1) * 256 + b2) * 256 + b3) :: beWords rest
  | _ => []

/-- FIPS 180-4 padding: append `0x80`, zeros, and the 64-bit big-endian bit
length, to a multiple of 64 bytes. -/
def sha256Pad (msg : List Nat) : List Nat :=
  msg ++ [0x80] ++ List.replicate ((119 - msg.length % 64) % 64) 0 ++ beBytes 8 (8 * msg.length)

/-- Split into 64-byte chunks (fuel = list length keeps this structurally
recursive and kernel-reducible). -/
def chunks64Aux : Nat → List Nat → List (List Nat)
  | 0, _ => []
  | _ + 1, [] => []
  | fuel + 1, l => l.take 64 :: chunks64Aux fuel (l.drop 64)

/-- Split a byte list into 64-byte chunks. -/
def chunks64 (l : List Nat) : List (List Nat) := chunks64Aux l.length l

/-- Message-schedule extension; `acc` holds the schedule so far, most recent
word first, so `w[t-2]` is `acc[1]`, `w[t-7]` is `acc[6]`, `w[t-15]` is
`acc[14]`, `w[t-16]` is `acc[15]`. -/
def extendSchedule : Nat → List Nat → List Nat
  | 0, acc => acc
  | n + 1, acc =>
    let w := w32 (smallSigma1 (acc.getD 1 0) + acc.getD 6 0 +
                  smallSigma0 (acc.getD 14 0) + acc.getD 15 0)
    extendSchedule n (w :: acc)

/-- SHA-256 working variables `a`–`h`. -/
structure Sha256State where
  va : Nat
  vb : Nat
  vc : Nat
  vd : Nat
  ve : Nat
  vf : Nat
  vg : Nat
  vh : Nat

/-- One SHA-256 compression round; `kw` is `K[t] + W[t]` (mod 2^32). -/
def sha256Round (st : Sha256State) (kw : Nat) : Sha256State :=
  let t1 := w32 (st.vh + bigSigma1 st.ve + chf st.ve st.vf st.vg + kw)
  let t2 := w32 (bigSigma0 st.va + majf st.va st.vb st.vc)
  ⟨w32 (t1 + t2), st.va, st.vb, st.vc, w32 (st.vd + t1), st.ve, st.vf, st.vg⟩

/-- Compress one 64-byte block into the running hash value (8 words). -/
def sha256Compress (hv : List Nat) (block : List Nat) : List Nat :=
  let ws := (extendSchedule 48 (beWords block).reverse).reverse
  let st0 : Sha256State :=
    ⟨hv.getD 0 0, hv.getD 1 0, hv.getD 2 0, hv.getD 3 0,
     hv.getD 4 0, hv.getD 5 0, hv.getD 6 0, hv.getD 7 0⟩
  let stF := (sha256K.zip ws).foldl (fun st p => sha256Round st (w32 (p.1 + p.2))) st0
  [w32 (hv.getD 0 0 + stF.va), w32 (hv.getD 1 0 + stF.vb),
   w32 (hv.getD 2 0 + stF.vc), w32 (hv.getD 3 0 + stF.vd),
   w32 (hv.getD 4 0 + stF.ve), w32 (hv.getD 5 0 + stF.vf),
   w32 (hv.getD 6 0 + stF.vg), w32 (hv.getD 7 0 + stF.vh)]

/-- SHA-256 of a byte list, as 32 bytes. -/
def sha256Bytes (msg : List Nat) : List Nat :=
  (((chunks64 (sha256Pad msg)).foldl sha256Compress sha256H0).map (beBytes 4)).flatten

/-- HMAC-SHA256 (RFC 2104): block size 64; keys longer than a block are
hashed first. -/
def hmacSha256 (key msg : List Nat) : List Nat :=
  let k0 := if 64 < key.length then sha256Bytes key else key
  let kBlock := k0 ++ List.replicate (64 - k0.length) 0
  let ipad := kBlock.map (fun b => b ^^^ 0x36)
  let opad := kBlock.map (fun b => b ^^^ 0x5c)
  sha256Bytes (opad ++ sha256Bytes (ipad ++ msg))

/-! ## UTF-8 and hex encoding (node `Buffer.from(string)` / `digest('hex')`) -/

/-- UTF-8 encoding of one scalar value. -/
def utf8Char (c : Char) : List Nat :=
  let n := c.toNat
  if n < 0x80 then [n]
  else if n < 0x800 then [0xC0 ||| (n >>> 6), 0x80 ||| (n &&& 0x3F)]
  else if n < 0x10000 then
    [0xE0 ||| (n >>> 12), 0x80 ||| ((n >>> 6) &&& 0x3F), 0x80 ||| (n &&& 0x3F)]
  else
    [0xF0 ||| (n >>> 18), 0x80 ||| ((n >>> 12) &&& 0x3F),
     0x80 ||| ((n >>> 6) &&& 0x3F), 0x80 ||| (n &&& 0x3F)]

/-- UTF-8 bytes of a string (node `Buffer.from(s)` with the default
encoding). -/
def utf8 (s : String) : List Nat := (s.data.map utf8Char).flatten

/-- Lowercase hex character for a value below 16. -/
def hexDigitChar (n : Nat) : Char :=
  if n < 10 then Char.ofNat (48 + n) else Char.ofNat (87 + n)

/-- Two lowercase hex characters for one byte. -/
def byteToHex (b : Nat) : List Char := [hexDigitChar (b / 16), hexDigitChar (b % 16)]

/-- Lowercase hex string of a byte list (node `digest('hex')`). -/
def bytesToHex (bs : List Nat) : String := ⟨(bs.map byteToHex).flatten⟩

/-- `createHmac('sha256', secret).update(message).digest('hex')` on JS
strings: UTF-8 encode both, HMAC, hex. -/
def hmacSha256Hex (secret message : String) : String :=
  bytesToHex (hmacSha256 (utf8 secret) (utf8 message))

/-! ## JSON values, `JSON.parse` and `JSON.stringify`

JS object payloads are modelled as finite JSON trees (`Json`); object fields
keep insertion order, which is what `JSON.stringify` serializes.  Numeric
literals are kept verbatim (`Json.num raw`): the claims never exercise
double rounding of numerals. -/

/-- A JSON value / JS plain-data object. -/
inductive Json where
  | null
  | bool (b : Bool)
  | num (raw : String)
  | str (s : String)
  | arr (items : List Json)
  | obj (fields : List (String × Json))

/-- JSON whitespace (RFC 8259: space, tab, line feed, carriage return). -/
def jsonWsChar (c : Char) : Bool := c = ' ' || c = '\t' || c = '\n' || c = '\r'

/-- Drop leading JSON whitespace. -/
def skipWs (cs : List Char) : List Char := cs.dropWhile jsonWsChar

/-- Value of one hex digit character, upper or lower case. -/
def hexVal (c : Char) : Option Nat :=
  if 48 ≤ c.toNat && c.toNat ≤ 57 then some (c.toNat - 48)
  else if 97 ≤ c.toNat && c.toNat ≤ 102 then some (c.toNat - 87)
  else if 65 ≤ c.toNat && c.toNat ≤ 70 then some (c.toNat - 55)
  else none

/-- Single-character JSON string escapes. -/
def escMap (e : Char) : Option Char :=
  if e = '"' then some '"'
  else if e = '\\' then some '\\'
  else if e = '/' then some '/'
  else if e = 'b' then some (Char.ofNat 8)
  else if e = 'f' then some (Char.ofNat 12)
  else if e = 'n' then some '\n'
  else if e = 'r' then some '\r'
  else if e = 't' then some '\t'
  else none

/-- Parse the body of a JSON string after the opening quote, returning the
decoded characters and the input after the closing quote.  Handles the
standard escapes and `\uXXXX`, combining surrogate pairs; a lone surrogate
(representable in a JS string but not as a Unicode scalar) is mapped to
U+FFFD.  Unescaped control characters are invalid. -/
def jsonStrAux : Nat → List Char → Option (List Char × List Char)
  | 0, _ => none
  | _ + 1, [] => none
  | fuel + 1, c :: cs =>
    if c = '"' then some ([], cs)
    else if c = '\\' then
      match cs with
      | 'u' :: h1 :: h2 :: h3 :: h4 :: cs3 =>
        match hexVal h1, hexVal h2, hexVal h3, hexVal h4 with
        | some a, some b, some c1, some d =>
          let n := ((a * 16 + b) * 16 + c1) * 16 + d
          if 0xD800 ≤ n && n ≤ 0xDBFF then
            match cs3 with
            | '\\' :: 'u' :: g1 :: g2 :: g3 :: g4 :: cs4 =>
              match hexVal g1, hexVal g2, hexVal g3, hexVal g4 with
              | some a2, some b2, some c2, some d2 =>
                let m := ((a2 * 16 + b2) * 16 + c2) * 16 + d2
                if 0xDC00 ≤ m && m ≤ 0xDFFF then
                  let cp := 0x10000 + (n - 0xD800) * 1024 + (m - 0xDC00)
                  (jsonStrAux fuel cs4).map (fun p => (Char.ofNat cp :: p.1, p.2))
                else
                  (jsonStrAux fuel (('\\' :: 'u' :: g1 :: g2 :: g3 :: g4 :: cs4))).map
                    (fun p => (Char.ofNat 0xFFFD :: p.1, p.2))
              | _, _, _, _ => none
            | _ => (jsonStrAux fuel cs3).map (fun p => (Char.ofNat 0xFFFD :: p.1, p.2))
          else if 0xDC00 ≤ n && n ≤ 0xDFFF then
            (jsonStrAux fuel cs3).map (fun p => (Char.ofNat 0xFFFD :: p.1, p.2))
          else (jsonStrAux fuel cs3).map (fun p => (Char.ofNat n :: p.1, p.2))
        | _, _, _, _ => none
      | e :: cs2 =>
        match escMap e with
        | some ch => (jsonStrAux fuel cs2).map (fun p => (ch :: p.1, p.2))
        | none => none
      | [] => none
    else if c.toNat < 32 then none
    else (jsonStrAux fuel cs).map (fun p => (c :: p.1, p.2))

/-- Parse the fraction and exponent tail of a numeric literal, given the sign
and integer-part characters already consumed.  A dot or exponent marker not
followed by a digit is left unconsumed (the caller's end-of-input check then
rejects, matching `JSON.parse`). -/
def jsonNumTail (neg intPart : List Char) (cs : List Char) : Option (Json × List Char) :=
  let fracDigits := match cs with
    | '.' :: r => r.takeWhile isDigitC
    | _ => []
  let fracPart := if fracDigits = [] then [] else '.' :: fracDigits
  let cs2 := if fracDigits = [] then cs else ((cs.drop 1).dropWhile isDigitC)
  let expAndRest : List Char × List Char :=
    match cs2 with
    | e :: r =>
      if e = 'e' || e = 'E' then
        let sgn : List Char := match r with
          | '+' :: _ => ['+']
          | '-' :: _ => ['-']
          | _ => []
        let r2 := r.drop sgn.length
        let ds := r2.takeWhile isDigitC
        if ds = [] then ([], cs2) else (e :: (sgn ++ ds), r2.dropWhile isDigitC)
      else ([], cs2)
    | [] => ([], cs2)
  some (Json.num ⟨neg ++ intPart ++ fracPart ++ expAndRest.1⟩, expAndRest.2)

/-- Parse a JSON numeric literal: optional minus, `0` or a nonzero-led digit
run, optional fraction and exponent. -/
def jsonNumber (cs : List Char) : Option (Json × List Char) :=
  let negAndRest : List Char × List Char :=
    match cs with
    | '-' :: r => (['-'], r)
    | _ => ([], cs)
  match negAndRest.2 with
  | c :: r =>
    if c = '0' then jsonNumTail negAndRest.1 ['0'] r
    else if isDigitC c then
      jsonNumTail negAndRest.1 (negAndRest.2.takeWhile isDigitC) (negAndRest.2.dropWhile isDigitC)
    else none
  | [] => none

mutual

/-- Parse one JSON value; returns the value and the remaining input.  Fuel
decreases at least once per two characters consumed, so `2·|input| + 2`
always suffices. -/
def jsonValAux : Nat → List Char → Option (Json × List Char)
  | 0, _ => none
  | _ + 1, [] => none
  | fuel + 1, c :: rest =>
    if c = 'n' then
      if rest.take 3 = ['u', 'l', 'l'] then some (Json.null, rest.drop 3) else none
    else if c = 't' then
      if rest.take 3 = ['r', 'u', 'e'] then some (Json.bool true, rest.drop 3) else none
    else if c = 'f' then
      if rest.take 4 = ['a', 'l', 's', 'e'] then some (Json.bool false, rest.drop 4) else none
    else if c = '"' then
      (jsonStrAux (rest.length + 1) rest).map (fun p => (Json.str ⟨p.1⟩, p.2))
    else if c = '[' then
      match skipWs rest with
      | d :: rest2 => if d = ']' then some (Json.arr [], rest2) else jsonArrItems fuel (skipWs rest) []
      | [] => none
    else if c = Char.ofNat 123 then
      match skipWs rest with
      | d :: rest2 =>
        if d = Char.ofNat 125 then some (Json.obj [], rest2) else jsonObjItems fuel (skipWs rest) []
      | [] => none
    else jsonNumber (c :: rest)

/-- Parse the comma-separated items of a non-empty JSON array, up to and
including the closing bracket. -/
def jsonArrItems : Nat → List Char → List Json → Option (Json × List Char)
  | 0, _, _ => none
  | fuel + 1, cs, acc =>
    match jsonValAux fuel cs with
    | none => none
    | some (v, rest) =>
      match skipWs rest with
      | c :: rest2 =>
        if c = ',' then jsonArrItems fuel (skipWs rest2) (acc ++ [v])
        else if c = ']' then some (Json.arr (acc ++ [v]), rest2)
        else none
      | [] => none

/-- Parse the `"key": value` members of a non-empty JSON object, up to and
including the closing brace. -/
def jsonObjItems : Nat → List Char → List (String × Json) → Option (Json × List Char)
  | 0, _, _ => none
  | fuel + 1, cs, acc =>
    match cs with
    | c :: rest =>
      if c = '"' then
        match jsonStrAux (rest.length + 1) rest with
        | none => none
        | some (key, rest2) =>
          match skipWs rest2 with
          | d :: rest3 =>
            if d = ':' then
              match jsonValAux fuel (skipWs rest3) with
              | none => none
              | some (v, rest4) =>
                match skipWs rest4 with
                | e :: rest5 =>
                  if e = ',' then jsonObjItems fuel (skipWs rest5) (acc ++ [(⟨key⟩, v)])
                  else if e = Char.ofNat 125 then
                    some (Json.obj (acc ++ [(⟨key⟩, v)]), rest5)
                  else none
                | [] => none
            else none
          | [] => none
      else none
    | [] => none

end

/-- Model of `JSON.parse(s)`: one value, with surrounding whitespace, and
nothing else; `none` where `JSON.parse` throws a `SyntaxError`.
(Duplicate object keys are kept in order rather than last-wins — the claims
never exercise duplicates.) -/
def jsonParse (s : String) : Option Json :=
  match jsonValAux (2 * s.data.length + 2) (skipWs s.data) with
  | some (v, rest) => if skipWs rest = [] then some v else none
  | none => none

/-- `JSON.stringify` escaping of one string character. -/
def escJsonChar (c : Char) : List Char :=
  if c = '"' then ['\\', '"']
  else if c = '\\' then ['\\', '\\']
  else if c = '\n' then ['\\', 'n']
  else if c = '\r' then ['\\', 'r']
  else if c = '\t' then ['\\', 't']
  else if c.toNat = 8 then ['\\', 'b']
  else if c.toNat = 12 then ['\\', 'f']
  else if c.toNat < 32 then '\\' :: 'u' :: '0' :: '0' :: byteToHex c.toNat
  else [c]

/-- A JSON string literal for `s`, quotes included. -/
def quoteJson (s : String) : List Char := '"' :: (s.data.map escJsonChar).flatten ++ ['"']

/-- Comma-join serialized items. -/
def commaJoin : List (List Char) → List Char
  | [] => []
  | [x] => x
  | x :: xs => x ++ ',' :: commaJoin xs

/-- `JSON.stringify` body, producing the serialized characters. -/
def jsonStringifyChars : Json → List Char
  | Json.null => ['n', 'u', 'l', 'l']
  | Json.bool b => if b then ['t', 'r', 'u', 'e'] else ['f', 'a', 'l', 's', 'e']
  | Json.num raw => raw.data
  | Json.str s => quoteJson s
  | Json.arr items =>
    '[' :: commaJoin (items.attach.map (fun x => jsonStringifyChars x.1)) ++ [']']
  | Json.obj fields =>
    Char.ofNat 123 ::
      commaJoin (fields.attach.map (fun x => quoteJson x.1.1 ++ ':' :: jsonStringifyChars x.1.2)) ++
      [Char.ofNat 125]
decreasing_by
  all_goals
    first
    | (have h := List.sizeOf_lt_of_mem x.2
       simp only [Json.arr.sizeOf_spec]
       omega)
    | (have h := List.sizeOf_lt_of_mem x.2
       obtain ⟨⟨a, b⟩, hx⟩ := x
       simp only [Prod.mk.sizeOf_spec] at h
       simp only [Json.obj.sizeOf_spec]
       omega)

/-- Model of `JSON.stringify(v)` for a plain-data object (no `undefined`,
functions or cycles — those are not representable as `Json` trees). -/
def jsonStringify (v : Json) : String := ⟨jsonStringifyChars v⟩

/-! ## Webhook module (`src/webhook.ts`) -/

/-- The `payload: string | object` argument of `Webhook.verify` /
`Webhook.sign`. -/
inductive WebhookPayloadArg where
  | str (s : String)
  | obj (v : Json)

/-- The two exception kinds `Webhook.verify` can surface: the module's own
`WebhookSignatureError`, and the raw `SyntaxError` that `JSON.parse` throws
on the success path when a string payload is not valid JSON. -/
inductive WebhookError where
  | signature (message : String)
  | jsonSyntax (message : String)

/-- `WebhookVerifyOptions`: `maxAgeSeconds?: number`, destructured in
`verify` with default 300. -/
structure WebhookVerifyOptions where
  maxAgeSeconds : Option Int := none

/-- `typeof payload === 'string' ? payload : JSON.stringify(payload)`. -/
def canonicalPayloadString : WebhookPayloadArg → String
  | WebhookPayloadArg.str s => s
  | WebhookPayloadArg.obj v => jsonStringify v

/-- The `// Check timestamp freshness` block of `Webhook.verify`:
`some message` when it throws, `none` when it falls through. -/
def freshnessCheck (maxAgeSeconds nowSec timestampNum : Int) : Option String :=
  if 0 < maxAgeSeconds then
    let age := nowSec - timestampNum
    if maxAgeSeconds < age then
      some s!"Timestamp too old: {age}s ago (max: {maxAgeSeconds}s)"
    else if age < -maxAgeSeconds then
      let ahead := -age
      some s!"Timestamp too far in future: {ahead}s ahead (max: {maxAgeSeconds}s)"
    else none
  else none

/-- `signature.replace(/^sha256=/, '')`: strip one leading `sha256=`. -/
def stripSigTag (s : String) : String :=
  if s.data.take 7 = ['s', 'h', 'a', '2', '5', '6', '='] then ⟨s.data.drop 7⟩ else s

/-- `crypto.timingSafeEqual(a, b)`: throws (`Except.error`) when the buffer
lengths differ, otherwise reports byte equality.  (The genuinely
constant-time execution of the comparison is a timing property outside a
functional embedding; its input–output behaviour is total equality.) -/
def timingSafeEqual (a b : List Nat) : Except String Bool :=
  if a.length = b.length then Except.ok (decide (a = b))
  else Except.error "Input buffers must have the same byte length"

/-- The `try { timingSafeEqual } catch { isValid = false }` block of
`Webhook.verify`, over the two hex strings as UTF-8 buffers. -/
def compareSignatures (expected received : String) : Bool :=
  match timingSafeEqual (utf8 expected) (utf8 received) with
  | Except.ok v => v
  | Except.error _ => false

/-- `Webhook.verify(payload, signature, timestamp, secret, options)`.
`signature` and `timestamp` are `string | undefined` (`Option String`);
`Date.now()` is the explicit `nowSec` (the code floors milliseconds to
seconds; `nowSec` is that floored value).  `Except.error` models a thrown
exception, `Except.ok` the returned parsed payload. -/
def Webhook.verify (payload : WebhookPayloadArg) (signature : Option String)
    (timestamp : Option String) (secret : String)
    (options : WebhookVerifyOptions) (nowSec : Int) : Except WebhookError Json :=
  let maxAgeSeconds := options.maxAgeSeconds.getD 300
  if signature.getD "" = "" then
    Except.error (WebhookError.signature "Missing X-NOPE-Signature header")
  else if timestamp.getD "" = "" then
    Except.error (WebhookError.signature "Missing X-NOPE-Timestamp header")
  else if secret = "" then
    Except.error (WebhookError.signature "Webhook secret is required")
  else
    let tsStr := timestamp.getD ""
    match jsParseInt tsStr with
    | none => Except.error (WebhookError.signature "Invalid timestamp format")
    | some timestampNum =>
      match freshnessCheck maxAgeSeconds nowSec timestampNum with
      | some msg => Except.error (WebhookError.signature msg)
      | none =>
        let payloadString := canonicalPayloadString payload
        let message := tsStr ++ "." ++ payloadString
        let expected := hmacSha256Hex secret message
        let received := stripSigTag (signature.getD "")
        if compareSignatures expected received then
          match payload with
          | WebhookPayloadArg.str s =>
            match jsonParse s with
            | some v => Except.ok v
            | none => Except.error (WebhookError.jsonSyntax "Unexpected token in JSON")
          | WebhookPayloadArg.obj v => Except.ok v
        else Except.error (WebhookError.signature "Signature verification failed")

/-- The `{ signature, timestamp }` object returned by `Webhook.sign`. -/
structure SignResult where
  signature : String
  timestamp : String

/-- `Webhook.sign(payload, secret, timestamp?)`; `timestamp` defaults to
`Math.floor(Date.now() / 1000)`, passed here as `nowSec`. -/
def Webhook.sign (payload : WebhookPayloadArg) (secret : String)
    (timestamp : Option Int) (nowSec : Int) : SignResult :=
  let ts := timestamp.getD nowSec
  let payloadString := canonicalPayloadString payload
  let message := jsIntToString ts ++ "." ++ payloadString
  let sig := hmacSha256Hex secret message
  { signature := "sha256=" ++ sig, timestamp := jsIntToString ts }

/-! ## Client (`src/client.ts`, `src/errors.ts`) -/

/-- `Message.role`: `'user' | 'assistant' | 'system'`. -/
inductive MessageRole where
  | user
  | assistant
  | system

/-- A conversation message. -/
structure Message where
  role : MessageRole
  content : String
  timestamp : Option String := none

/-- `EvaluateConfig` (all fields optional). -/
structure EvaluateConfig where
  user_country : Option String := none
  locale : Option String := none
  user_age_band : Option String := none
  policy_id : Option String := none
  dry_run : Option Bool := none
  return_assistant_reply : Option Bool := none
  assistant_safety_mode : Option String := none
  use_multiple_judges : Option Bool := none
  models : Option (List String) := none
  conversation_id : Option String := none
  end_user_id : Option String := none

/-- `EvaluateOptions`. -/
structure EvaluateOptions where
  messages : Option (List Message) := none
  text : Option String := none
  config : Option EvaluateConfig := none
  userContext : Option String := none

/-- `ScreenOptions` (messages / text / config). -/
structure ScreenOptions where
  messages : Option (List Message) := none
  text : Option String := none
  config : Option EvaluateConfig := none

/-- The JSON body built by `evaluate`: `config` always present (defaulted to
`{}`), the rest only when provided. -/
structure EvaluatePayload where
  config : EvaluateConfig
  messages : Option (List Message)
  text : Option String
  user_context : Option String

/-- The JSON body built by `screen`: every field only when provided. -/
structure ScreenPayload where
  messages : Option (List Message)
  text : Option String
  config : Option EvaluateConfig

/-- What a client method does before any I/O: throw a local validation
`Error`, or issue exactly one HTTP request with the given method, path and
body. -/
inductive ClientAction (β : Type) where
  | localError (message : String)
  | request (method : String) (path : String) (body : β)

/-- The part of `NopeClient.evaluate` up to (and including) handing the
request to `this.request`: the mutual-exclusion validation of
`messages`/`text` and the payload construction.  The HTTP call itself is
I/O and is represented by the `ClientAction.request` it would issue. -/
def NopeClient.evaluate (options : EvaluateOptions) : ClientAction EvaluatePayload :=
  if options.messages.isNone && options.text.isNone then
    ClientAction.localError "Either 'messages' or 'text' must be provided"
  else if options.messages.isSome && options.text.isSome then
    ClientAction.localError "Only one of 'messages' or 'text' can be provided, not both"
  else
    ClientAction.request "POST" "/v1/evaluate"
      { config := options.config.getD {}
        messages := options.messages
        text := options.text
        user_context := options.userContext }

/-- The pre-I/O part of `NopeClient.screen`, as for `evaluate`. -/
def NopeClient.screen (options : ScreenOptions) : ClientAction ScreenPayload :=
  if options.messages.isNone && options.text.isNone then
    ClientAction.localError "Either 'messages' or 'text' must be provided"
  else if options.messages.isSome && options.text.isSome then
    ClientAction.localError "Only one of 'messages' or 'text' can be provided, not both"
  else
    ClientAction.request "POST" "/v1/screen"
      { messages := options.messages
        text := options.text
        config := options.config }

/-- The SDK error taxonomy of `src/errors.ts`, as a sum type: one variant
per class, carrying that class's own fields (`retryAfter` in milliseconds
only on the rate-limit variant). -/
inductive NopeErr where
  | api (message : String) (statusCode : Option Nat) (responseBody : Option String)
  | auth (message : String) (responseBody : Option String)
  | validation (message : String) (responseBody : Option String)
  | rateLimit (message : String) (retryAfter : Option Rat) (responseBody : Option String)
  | server (message : String) (statusCode : Nat) (responseBody : Option String)
  | connection (message : String)

/-- A fetch `Response` as `handleResponse` consumes it: status, headers and
the already-awaited body text. -/
structure JsResponse where
  status : Nat
  headers : List (String × String)
  body : String

/-- `Response.ok`: status in the range 200–299. -/
def responseOk (r : JsResponse) : Bool := 200 ≤ r.status && r.status ≤ 299

/-- ASCII-lowercase a string (folding over its characters keeps the model
kernel-reducible; header names are ASCII). -/
def lowerStr (s : String) : String := ⟨s.data.map Char.toLower⟩

/-- `Headers.get(name)`: case-insensitive lookup (Fetch spec). -/
def headersGet (hs : List (String × String)) (nm : String) : Option String :=
  (hs.find? (fun p => lowerStr p.1 = lowerStr nm)).map (fun p => p.2)

/-- Model of JS `parseFloat(s)`: trim whitespace, optional sign, decimal
digits with optional fraction and exponent; `none` where JS returns `NaN`.
(JS doubles are modelled as exact rationals, and the `Infinity` literal is
abstracted to `none`; the claims exercise neither.) -/
def jsParseFloatVal (s : String) : Option Rat :=
  let cs := s.data.dropWhile isJsWs
  let sgnAndRest : Int × List Char :=
    match cs with
    | '-' :: r => (-1, r)
    | '+' :: r => (1, r)
    | _ => (1, cs)
  let intDigits := sgnAndRest.2.takeWhile isDigitC
  let cs2 := sgnAndRest.2.dropWhile isDigitC
  let fracDigits := match cs2 with
    | '.' :: r => r.takeWhile isDigitC
    | _ => []
  let cs3 := if cs2.take 1 = ['.'] then (cs2.drop 1).dropWhile isDigitC else cs2
  if intDigits = [] ∧ fracDigits = [] then none
  else
    let expVal : Int :=
      match cs3 with
      | e :: r =>
        if e = 'e' || e = 'E' then
          let negExp := r.take 1 = ['-']
          let r2 := if r.take 1 = ['-'] ∨ r.take 1 = ['+'] then r.drop 1 else r
          let ds := r2.takeWhile isDigitC
          if ds = [] then 0
          else if negExp then -Int.ofNat (digitsAcc ds 0) else Int.ofNat (digitsAcc ds 0)
        else 0
      | [] => 0
    let mantNum : Int := sgnAndRest.1 *
      Int.ofNat (digitsAcc intDigits 0 * 10 ^ fracDigits.length + digitsAcc fracDigits 0)
    some (if 0 ≤ expVal
      then Rat.divInt (mantNum * Int.ofNat (10 ^ expVal.toNat))
        (Int.ofNat (10 ^ fracDigits.length))
      else Rat.divInt mantNum
        (Int.ofNat (10 ^ fracDigits.length * 10 ^ (-expVal).toNat)))

/-- `errorData.error ?? responseText` after `JSON.parse(responseText)`, with
parse failure falling back to the raw text.  A non-string, non-null `error`
field would be coerced by JS when the message is used; it is serialized
here (the claims only exercise string-or-absent). -/
def parseErrorMessage (responseText : String) : String :=
  match jsonParse responseText with
  | some (Json.obj fields) =>
    match (fields.reverse.find? (fun p => p.1 = "error")).map (fun p => p.2) with
    | some (Json.str s) => s
    | some Json.null => responseText
    | some v => jsonStringify v
    | none => responseText
  | _ => responseText

/-- The `Retry-After` computation of the 429 branch:
`retryAfter ? parseFloat(retryAfter) * 1000 : undefined`
(absent or empty header is falsy). -/
def retryAfterMs (resp : JsResponse) : Option Rat :=
  match headersGet resp.headers "Retry-After" with
  | some h => if h = "" then none else (jsParseFloatVal h).map (fun q => q * 1000)
  | none => none

/-- `NopeClient.handleResponse`: parse a success body as JSON, otherwise map
the status code to the typed error taxonomy. -/
def NopeClient.handleResponse (resp : JsResponse) : Except NopeErr Json :=
  let responseText := resp.body
  if responseOk resp then
    match jsonParse responseText with
    | some v => Except.ok v
    | none => Except.error (NopeErr.api "Invalid JSON response" (some resp.status) (some responseText))
  else
    let errorMessage := parseErrorMessage responseText
    if resp.status = 401 then
      Except.error (NopeErr.auth errorMessage (some responseText))
    else if resp.status = 400 then
      Except.error (NopeErr.validation errorMessage (some responseText))
    else if resp.status = 429 then
      Except.error (NopeErr.rateLimit errorMessage (retryAfterMs resp) (some responseText))
    else if 500 ≤ resp.status then
      Except.error (NopeErr.server errorMessage resp.status (some responseText))
    else
      Except.error (NopeErr.api errorMessage (some resp.status) (some responseText))

end NopeSdk

namespace NopeSdk

/-! ## Supporting lemmas -/

theorem char_toNat_inj {c d : Char} (h : c.toNat = d.toNat) : c = d := by
  have := congrArg Char.ofNat h
  rwa [Char.ofNat_toNat, Char.ofNat_toNat] at this

theorem digitChar_toNat {d : Nat} (h : d < 10) : (digitChar d).toNat = 48 + d := by
  interval_cases d <;> decide

theorem isDigitC_digitChar {d : Nat} (h : d < 10) : isDigitC (digitChar d) = true := by
  interval_cases d <;> decide

theorem digitsAcc_natDecAux (fuel : Nat) :
    ∀ n acc rest, n < fuel →
      digitsAcc (natDecAux fuel n ++ rest) acc =
        digitsAcc rest (acc * 10 ^ (natDecAux fuel n).length + n) := by
  induction fuel with
  | zero => intro n acc rest h; omega
  | succ fuel ih =>
    intro n acc rest h
    by_cases h10 : n < 10
    · simp only [natDecAux, if_pos h10, List.singleton_append, List.length_singleton]
      simp only [digitsAcc, isDigitC_digitChar h10, if_pos]
      rw [digitChar_toNat h10]
      norm_num
    · have hdiv : n / 10 < fuel := by
        have := Nat.div_lt_self (by omega : 0 < n) (by omega : 1 < 10)
        omega
      simp only [natDecAux, if_neg h10, List.append_assoc, List.length_append,
        List.length_singleton]
      rw [ih (n / 10) acc ([digitChar (n % 10)] ++ rest) hdiv]
      have hmod : n % 10 < 10 := Nat.mod_lt _ (by omega)
      simp only [List.singleton_append, digitsAcc, isDigitC_digitChar hmod, if_pos]
      rw [digitChar_toNat hmod]
      congr 1
      have := Nat.div_add_mod n 10
      ring_nf
      omega

theorem natDecAux_cons (fuel : Nat) :
    ∀ n, n < fuel → ∃ c cs, natDecAux fuel n = c :: cs ∧ isDigitC c = true := by
  induction fuel with
  | zero => intro n h; omega
  | succ fuel ih =>
    intro n h
    by_cases h10 : n < 10
    · exact ⟨digitChar n, [], by simp [natDecAux, if_pos h10], isDigitC_digitChar h10⟩
    · have hdiv : n / 10 < fuel := by
        have := Nat.div_lt_self (by omega : 0 < n) (by omega : 1 < 10)
        omega
      obtain ⟨c, cs, heq, hdig⟩ := ih (n / 10) hdiv
      exact ⟨c, cs ++ [digitChar (n % 10)], by simp [natDecAux, if_neg h10, heq], hdig⟩

theorem parseDigits_natDec (n : Nat) : parseDigits (natDec n) = some n := by
  obtain ⟨c, cs, heq, hdig⟩ := natDecAux_cons (n + 1) n (Nat.lt_succ_self n)
  unfold natDec
  rw [heq]
  simp only [parseDigits, hdig, if_pos]
  have := digitsAcc_natDecAux (n + 1) n 0 [] (Nat.lt_succ_self n)
  rw [List.append_nil] at this
  rw [heq] at this
  simp [digitsAcc] at this ⊢
  rw [this]

theorem digit_props {c : Char} (h : isDigitC c = true) :
    isJsWs c = false ∧ c ≠ '-' ∧ c ≠ '+' := by
  simp only [isDigitC, Bool.and_eq_true, decide_eq_true_eq] at h
  refine ⟨?_, ?_, ?_⟩
  · simp only [isJsWs, Bool.or_eq_false_iff, decide_eq_false_iff_not]
    omega
  · intro he; subst he; revert h; decide
  · intro he; subst he; revert h; decide

theorem natDec_ne_nil (n : Nat) : natDec n ≠ [] := by
  obtain ⟨c, cs, heq, _⟩ := natDecAux_cons (n + 1) n (Nat.lt_succ_self n)
  unfold natDec
  rw [heq]
  simp

theorem jsParseInt_jsIntToString (i : Int) : jsParseInt (jsIntToString i) = some i := by
  obtain ⟨c, cs, heq, hdig⟩ := natDecAux_cons (i.natAbs + 1) i.natAbs (Nat.lt_succ_self _)
  have hnd : natDec i.natAbs = c :: cs := heq
  obtain ⟨hws, hminus, hplus⟩ := digit_props hdig
  by_cases hneg : i < 0
  · have hwsm : isJsWs '-' = false := rfl
    simp only [jsIntToString, if_pos hneg, jsParseInt, List.dropWhile_cons, hwsm]
    simp [parseDigits_natDec]
    rw [abs_of_neg hneg]
    ring
  · simp only [jsIntToString, if_neg hneg, jsParseInt, hnd, List.dropWhile_cons, hws]
    simp only [Bool.false_eq_true, ite_false, if_neg hminus, if_neg hplus]
    rw [← hnd]
    simp [parseDigits_natDec]
    omega

theorem jsIntToString_ne_empty (i : Int) : jsIntToString i ≠ "" := by
  have h := natDec_ne_nil i.natAbs
  unfold jsIntToString
  split <;> (intro he; apply_fun String.data at he; simp_all)

theorem string_mk_append (a b : List Char) : String.mk a ++ String.mk b = String.mk (a ++ b) :=
  rfl

theorem append_ne_empty_left (a b : String) (h : a ≠ "") : a ++ b ≠ "" := by
  intro he
  apply_fun String.data at he
  rw [String.data_append] at he
  simp only [List.append_eq_nil] at he
  exact h (String.ext he.1)

theorem stripSigTag_sha256_append (s : String) : stripSigTag ("sha256=" ++ s) = s := by
  unfold stripSigTag
  have hd : ("sha256=" ++ s).data = ['s', 'h', 'a', '2', '5', '6', '='] ++ s.data := by
    rw [String.data_append]
  rw [hd]
  have h7 : (7 : Nat) = (['s', 'h', 'a', '2', '5', '6', '='] : List Char).length := rfl
  rw [h7, List.take_left, List.drop_left]
  rw [if_pos rfl]

theorem compareSignatures_self (s : String) : compareSignatures s s = true := by
  simp [compareSignatures, timingSafeEqual]

theorem utf8_ascii (l : List Char) (h : ∀ c ∈ l, c.toNat < 128) :
    (l.map utf8Char).flatten = l.map Char.toNat := by
  induction l with
  | nil => rfl
  | cons c cs ih =>
    have hc : c.toNat < 128 := h c (List.mem_cons_self c cs)
    simp only [List.map_cons, List.flatten_cons, utf8Char]
    rw [if_pos (by omega : c.toNat < 0x80)]
    rw [ih (fun d hd => h d (List.mem_cons_of_mem c hd))]
    rfl

theorem map_toNat_inj {l1 l2 : List Char} (h : l1.map Char.toNat = l2.map Char.toNat) :
    l1 = l2 :=
  List.map_injective_iff.mpr (fun _ _ => char_toNat_inj) h

theorem freshnessCheck_in_window {maxAge now ts : Int}
    (h1 : -maxAge ≤ now - ts) (h2 : now - ts ≤ maxAge) :
    freshnessCheck maxAge now ts = none := by
  simp only [freshnessCheck]
  split_ifs <;> first | rfl | omega

theorem freshnessCheck_nonpos {maxAge : Int} (h : ¬0 < maxAge) (now ts : Int) :
    freshnessCheck maxAge now ts = none := by
  unfold freshnessCheck
  rw [if_neg h]

theorem freshnessCheck_too_old {maxAge now ts : Int} (h0 : 0 < maxAge)
    (h : maxAge < now - ts) :
    freshnessCheck maxAge now ts =
      some s!"Timestamp too old: {now - ts}s ago (max: {maxAge}s)" := by
  unfold freshnessCheck
  rw [if_pos h0, if_pos h]

theorem freshnessCheck_future {maxAge now ts : Int} (h0 : 0 < maxAge)
    (h : now - ts < -maxAge) :
    freshnessCheck maxAge now ts =
      some s!"Timestamp too far in future: {-(now - ts)}s ahead (max: {maxAge}s)" := by
  unfold freshnessCheck
  rw [if_pos h0, if_neg (by omega), if_pos h]

/-- The terminal step of `Webhook.verify` once the comparison has succeeded:
`typeof payload === 'string' ? JSON.parse(payload) : payload`, with a
`JSON.parse` failure surfacing as the raw `SyntaxError`. -/
def postParse : WebhookPayloadArg → Except WebhookError Json
  | WebhookPayloadArg.str s =>
    match jsonParse s with
    | some v => Except.ok v
    | none => Except.error (WebhookError.jsonSyntax "Unexpected token in JSON")
  | WebhookPayloadArg.obj v => Except.ok v

theorem verify_checks_pass
    (payload : WebhookPayloadArg) (sig tsStr secret : String)
    (opts : WebhookVerifyOptions) (now n : Int)
    (hsig : sig ≠ "") (hts : tsStr ≠ "") (hsecret : secret ≠ "")
    (hparse : jsParseInt tsStr = some n)
    (hfresh : freshnessCheck (opts.maxAgeSeconds.getD 300) now n = none) :
    Webhook.verify payload (some sig) (some tsStr) secret opts now =
      (if compareSignatures
           (hmacSha256Hex secret (tsStr ++ "." ++ canonicalPayloadString payload))
           (stripSigTag sig) then postParse payload
      else Except.error (WebhookError.signature "Signature verification failed")) := by
  unfold Webhook.verify
  simp only [Option.getD_some, if_neg hsig, if_neg hts, if_neg hsecret, hparse, hfresh]
  simp only [postParse]

theorem verify_success
    (payload : WebhookPayloadArg) (sig tsStr secret : String)
    (opts : WebhookVerifyOptions) (now n : Int)
    (hsig : sig ≠ "") (hts : tsStr ≠ "") (hsecret : secret ≠ "")
    (hparse : jsParseInt tsStr = some n)
    (hfresh : freshnessCheck (opts.maxAgeSeconds.getD 300) now n = none)
    (hmatch : stripSigTag sig =
      hmacSha256Hex secret (tsStr ++ "." ++ canonicalPayloadString payload)) :
    Webhook.verify payload (some sig) (some tsStr) secret opts now = postParse payload := by
  rw [verify_checks_pass payload sig tsStr secret opts now n hsig hts hsecret hparse hfresh,
    hmatch, if_pos (compareSignatures_self _)]

theorem verify_mismatch
    (payload : WebhookPayloadArg) (sig tsStr secret : String)
    (opts : WebhookVerifyOptions) (now n : Int)
    (hsig : sig ≠ "") (hts : tsStr ≠ "") (hsecret : secret ≠ "")
    (hparse : jsParseInt tsStr = some n)
    (hfresh : freshnessCheck (opts.maxAgeSeconds.getD 300) now n = none)
    (hcmp : compareSignatures
      (hmacSha256Hex secret (tsStr ++ "." ++ canonicalPayloadString payload))
      (stripSigTag sig) = false) :
    Webhook.verify payload (some sig) (some tsStr) secret opts now =
      Except.error (WebhookError.signature "Signature verification failed") := by
  rw [verify_checks_pass payload sig tsStr secret opts now n hsig hts hsecret hparse hfresh,
    hcmp]
  rfl

end NopeSdk

namespace NopeSdk

/-! ## Claim theorems -/

/-- C1 fails as stated: for the string payload `"hello"` (correctly signed,
non-empty secret, timestamp inside the freshness window) `Webhook.verify`
does not return the payload — the final `JSON.parse` throws a raw
`SyntaxError`, since `"hello"` is not valid JSON. -/
theorem c1_counterexample :
    Webhook.verify (WebhookPayloadArg.str "hello")
      (some (Webhook.sign (WebhookPayloadArg.str "hello") "whsec_test" (some 1000) 1100).signature)
      (some (Webhook.sign (WebhookPayloadArg.str "hello") "whsec_test" (some 1000) 1100).timestamp)
      "whsec_test" {} 1100 =
      Except.error (WebhookError.jsonSyntax "Unexpected token in JSON") := by
  simp only [Webhook.sign, Option.getD_some]
  rw [verify_success _ _ _ _ _ _ 1000
    (append_ne_empty_left _ _ (by decide))
    (jsIntToString_ne_empty 1000) (by decide) (jsParseInt_jsIntToString 1000)
    (freshnessCheck_in_window (by decide) (by decide))
    (stripSigTag_sha256_append _)]
  rfl

/-- C1 (amended): for every payload that is an object, or a string that is
valid JSON, every non-empty secret, and every integer timestamp within the
freshness window of the clock, `Webhook.verify` applied to the signature and
timestamp produced by `Webhook.sign(payload, secret, timestamp)` succeeds
and returns the canonical payload — the object itself, respectively the
`JSON.parse` of the string. -/
theorem c1_sign_verify_roundTrip
    (payload : WebhookPayloadArg) (secret : String) (ts now : Int)
    (opts : WebhookVerifyOptions) (result : Json)
    (hsecret : secret ≠ "")
    (hwindow : 0 < opts.maxAgeSeconds.getD 300 →
      -(opts.maxAgeSeconds.getD 300) ≤ now - ts ∧ now - ts ≤ opts.maxAgeSeconds.getD 300)
    (hres : (∃ v, payload = WebhookPayloadArg.obj v ∧ result = v) ∨
            (∃ s, payload = WebhookPayloadArg.str s ∧ jsonParse s = some result)) :
    Webhook.verify payload
      (some (Webhook.sign payload secret (some ts) now).signature)
      (some (Webhook.sign payload secret (some ts) now).timestamp)
      secret opts now = Except.ok result := by
  simp only [Webhook.sign, Option.getD_some]
  have hfresh : freshnessCheck (opts.maxAgeSeconds.getD 300) now ts = none := by
    by_cases h0 : 0 < opts.maxAgeSeconds.getD 300
    · obtain ⟨h1, h2⟩ := hwindow h0
      exact freshnessCheck_in_window h1 h2
    · exact freshnessCheck_nonpos h0 now ts
  rw [verify_success payload _ _ secret opts now ts
    (append_ne_empty_left _ _ (by decide))
    (jsIntToString_ne_empty ts) hsecret (jsParseInt_jsIntToString ts) hfresh
    (stripSigTag_sha256_append _)]
  rcases hres with ⟨v, hp, hr⟩ | ⟨s, hp, hr⟩
  · subst hp; subst hr; rfl
  · subst hp; simp only [postParse, hr]

/-- C1 witness: the amended round trip at a concrete object payload. -/
theorem c1_witness :
    ("whsec_test" : String) ≠ "" ∧
    Webhook.verify (WebhookPayloadArg.obj (Json.obj [("event", Json.str "test.ping")]))
      (some (Webhook.sign (WebhookPayloadArg.obj (Json.obj [("event", Json.str "test.ping")]))
        "whsec_test" (some 1000) 1100).signature)
      (some (Webhook.sign (WebhookPayloadArg.obj (Json.obj [("event", Json.str "test.ping")]))
        "whsec_test" (some 1000) 1100).timestamp)
      "whsec_test" {} 1100 = Except.ok (Json.obj [("event", Json.str "test.ping")]) :=
  ⟨by decide,
   c1_sign_verify_roundTrip _ "whsec_test" 1000 1100 {} _ (by decide)
     (fun _ => by constructor <;> decide)
     (Or.inl ⟨_, rfl, rfl⟩)⟩

end NopeSdk
namespace NopeSdk

theorem append_data_take1 (a b : String) (c : Char) (h : a.data.take 1 = [c]) :
    (a ++ b).data.take 1 = [c] := by
  rw [String.data_append, List.take_append_of_le_length]
  · exact h
  · cases hd : a.data with
    | nil => rw [hd] at h; simp at h
    | cons x xs => simp

theorem freshness_msg_take1 {maxAge now ts : Int} {m : String}
    (h : freshnessCheck maxAge now ts = some m) : m.data.take 1 = ['T'] := by
  simp only [freshnessCheck] at h
  split_ifs at h <;>
    (cases h
     repeat apply append_data_take1
     decide)

theorem verify_invalid_ts
    (payload : WebhookPayloadArg) (sig tsStr secret : String)
    (opts : WebhookVerifyOptions) (now : Int)
    (hsig : sig ≠ "") (hts : tsStr ≠ "") (hsecret : secret ≠ "")
    (hparse : jsParseInt tsStr = none) :
    Webhook.verify payload (some sig) (some tsStr) secret opts now =
      Except.error (WebhookError.signature "Invalid timestamp format") := by
  unfold Webhook.verify
  simp only [Option.getD_some, if_neg hsig, if_neg hts, if_neg hsecret, hparse]

theorem verify_freshness_error
    (payload : WebhookPayloadArg) (sig tsStr secret : String)
    (opts : WebhookVerifyOptions) (now n : Int) (m : String)
    (hsig : sig ≠ "") (hts : tsStr ≠ "") (hsecret : secret ≠ "")
    (hparse : jsParseInt tsStr = some n)
    (hfresh : freshnessCheck (opts.maxAgeSeconds.getD 300) now n = some m) :
    Webhook.verify payload (some sig) (some tsStr) secret opts now =
      Except.error (WebhookError.signature m) := by
  unfold Webhook.verify
  simp only [Option.getD_some, if_neg hsig, if_neg hts, if_neg hsecret, hparse, hfresh]

/-- C5 fails as stated: the timestamp string `"100x"` is not the decimal
representation of an integer, yet `Webhook.verify` does not reject it at
the parsing step — JS `parseInt("100x", 10) = 100` — and with a matching
signature over the raw header string the verification fully succeeds. -/
theorem c5_counterexample :
    Webhook.verify (WebhookPayloadArg.obj (Json.arr []))
      (some ("sha256=" ++ hmacSha256Hex "whsec_test"
        ("100x" ++ "." ++ canonicalPayloadString (WebhookPayloadArg.obj (Json.arr [])))))
      (some "100x") "whsec_test" {} 100 = Except.ok (Json.arr []) := by
  rw [verify_success _ _ _ _ _ _ 100
    (append_ne_empty_left _ _ (by decide)) (by decide) (by decide)
    (by decide) (freshnessCheck_in_window (by decide) (by decide))
    (stripSigTag_sha256_append _)]
  rfl

/-- C5 (amended): `Webhook.verify` rejects with `Invalid timestamp format`
exactly when JS `parseInt(timestamp, 10)` yields `NaN` (no leading digit
run after optional whitespace and sign); timestamp strings with a parseable
integer prefix — including ones followed by garbage — proceed past the
parsing step to the freshness and signature checks. -/
theorem c5_timestampParse
    (payload : WebhookPayloadArg) (sig tsStr secret : String)
    (opts : WebhookVerifyOptions) (now : Int)
    (hsig : sig ≠ "") (hts : tsStr ≠ "") (hsecret : secret ≠ "") :
    Webhook.verify payload (some sig) (some tsStr) secret opts now =
      Except.error (WebhookError.signature "Invalid timestamp format") ↔
    jsParseInt tsStr = none := by
  constructor
  · intro h
    cases hjp : jsParseInt tsStr with
    | none => rfl
    | some n =>
      exfalso
      cases hfr : freshnessCheck (opts.maxAgeSeconds.getD 300) now n with
      | some m =>
        rw [verify_freshness_error payload sig tsStr secret opts now n m
          hsig hts hsecret hjp hfr] at h
        have h1 := freshness_msg_take1 hfr
        simp only [Except.error.injEq, WebhookError.signature.injEq] at h
        rw [h] at h1
        revert h1
        decide
      | none =>
        rw [verify_checks_pass payload sig tsStr secret opts now n
          hsig hts hsecret hjp hfr] at h
        by_cases hcmp : compareSignatures
            (hmacSha256Hex secret (tsStr ++ "." ++ canonicalPayloadString payload))
            (stripSigTag sig) = true
        · rw [if_pos hcmp] at h
          cases payload with
          | obj v => simp [postParse] at h
          | str s =>
            simp only [postParse] at h
            cases hj : jsonParse s with
            | some v => rw [hj] at h; simp at h
            | none => rw [hj] at h; simp at h
        · rw [if_neg hcmp] at h
          simp only [Except.error.injEq, WebhookError.signature.injEq] at h
          revert h
          decide
  · intro h
    exact verify_invalid_ts payload sig tsStr secret opts now hsig hts hsecret h

/-- C5 witness: an unparseable timestamp string rejected at the parse step. -/
theorem c5_witness :
    Webhook.verify (WebhookPayloadArg.str "x") (some "sig") (some "abc") "s" {} 0 =
      Except.error (WebhookError.signature "Invalid timestamp format") :=
  (c5_timestampParse (WebhookPayloadArg.str "x") "sig" "abc" "s" {} 0
    (by decide) (by decide) (by decide)).mpr (by decide)

end NopeSdk
namespace NopeSdk

theorem verify_missing_sig
    (payload : WebhookPayloadArg) (sig ts : Option String) (secret : String)
    (opts : WebhookVerifyOptions) (now : Int) (hsig : sig.getD "" = "") :
    Webhook.verify payload sig ts secret opts now =
      Except.error (WebhookError.signature "Missing X-NOPE-Signature header") := by
  unfold Webhook.verify
  rw [if_pos hsig]

theorem verify_missing_ts
    (payload : WebhookPayloadArg) (sig ts : Option String) (secret : String)
    (opts : WebhookVerifyOptions) (now : Int)
    (hsig : sig.getD "" ≠ "") (hts : ts.getD "" = "") :
    Webhook.verify payload sig ts secret opts now =
      Except.error (WebhookError.signature "Missing X-NOPE-Timestamp header") := by
  unfold Webhook.verify
  rw [if_neg hsig, if_pos hts]

theorem verify_empty_secret
    (payload : WebhookPayloadArg) (sig ts : Option String) (secret : String)
    (opts : WebhookVerifyOptions) (now : Int)
    (hsig : sig.getD "" ≠ "") (hts : ts.getD "" ≠ "") (hsecret : secret = "") :
    Webhook.verify payload sig ts secret opts now =
      Except.error (WebhookError.signature "Webhook secret is required") := by
  unfold Webhook.verify
  rw [if_neg hsig, if_neg hts, if_pos hsecret]

theorem postParse_ne_sig (payload : WebhookPayloadArg) (m : String) :
    postParse payload ≠ Except.error (WebhookError.signature m) := by
  cases payload with
  | obj v => simp [postParse]
  | str s =>
    simp only [postParse]
    cases hj : jsonParse s <;> simp

theorem option_eq_some_getD {o : Option String} (h : o.getD "" ≠ "") :
    o = some (o.getD "") := by
  cases o with
  | none => simp at h
  | some s => rfl

/-- C10: when all signature checks pass, `Webhook.verify` returns the
payload object itself, unmodified, if the payload argument was an object;
if the payload argument was a string it returns the result of JSON-parsing
that string; and for a correctly signed string that is not valid JSON the
final parse surfaces as the raw `WebhookError.jsonSyntax` — by construction
a different constructor from `WebhookError.signature`, i.e. not a
`WebhookSignatureError`. -/
theorem c10_postVerification
    (payload : WebhookPayloadArg) (sig tsStr secret : String)
    (opts : WebhookVerifyOptions) (now n : Int)
    (hsig : sig ≠ "") (hts : tsStr ≠ "") (hsecret : secret ≠ "")
    (hparse : jsParseInt tsStr = some n)
    (hfresh : freshnessCheck (opts.maxAgeSeconds.getD 300) now n = none)
    (hmatch : stripSigTag sig =
      hmacSha256Hex secret (tsStr ++ "." ++ canonicalPayloadString payload)) :
    (∀ v, payload = WebhookPayloadArg.obj v →
       Webhook.verify payload (some sig) (some tsStr) secret opts now = Except.ok v) ∧
    (∀ s v, payload = WebhookPayloadArg.str s → jsonParse s = some v →
       Webhook.verify payload (some sig) (some tsStr) secret opts now = Except.ok v) ∧
    (∀ s, payload = WebhookPayloadArg.str s → jsonParse s = none →
       Webhook.verify payload (some sig) (some tsStr) secret opts now =
         Except.error (WebhookError.jsonSyntax "Unexpected token in JSON")) := by
  have hv := verify_success payload sig tsStr secret opts now n hsig hts hsecret hparse hfresh
    hmatch
  refine ⟨?_, ?_, ?_⟩
  · intro v hp; subst hp; rw [hv]; rfl
  · intro s v hp hj; subst hp; rw [hv]; simp [postParse, hj]
  · intro s hp hj; subst hp; rw [hv]; simp [postParse, hj]

/-- C10 witness: a correctly signed non-JSON string payload at concrete inputs. -/
theorem c10_witness :
    Webhook.verify (WebhookPayloadArg.str "not json")
      (some ("sha256=" ++ hmacSha256Hex "whsec_test"
        ("5" ++ "." ++ canonicalPayloadString (WebhookPayloadArg.str "not json"))))
      (some "5") "whsec_test" {} 5 =
      Except.error (WebhookError.jsonSyntax "Unexpected token in JSON") :=
  (c10_postVerification (WebhookPayloadArg.str "not json") _ "5" "whsec_test" {} 5 5
    (append_ne_empty_left _ _ (by decide)) (by decide) (by decide) (by decide)
    (by decide) (stripSigTag_sha256_append _)).2.2 "not json" rfl (by rfl)

/-- C3: with any positive `maxAgeSeconds` (300 by default), and the earlier
checks passing, `Webhook.verify` rejects with the staleness reason
`Timestamp too old` whenever `age = now - timestamp` exceeds
`maxAgeSeconds`, rejects with `Timestamp too far in future` whenever `age`
is below `-maxAgeSeconds`, and inside the closed window
`-maxAgeSeconds ≤ age ≤ maxAgeSeconds` (boundary inclusive in both
directions) never rejects on freshness grounds: the only signature-error
message still possible is the comparison failure. -/
theorem c3_freshnessBounds
    (payload : WebhookPayloadArg) (sig tsStr secret : String)
    (opts : WebhookVerifyOptions) (now n maxAge age : Int)
    (hM : opts.maxAgeSeconds.getD 300 = maxAge) (hmax : 0 < maxAge)
    (hA : now - n = age)
    (hsig : sig ≠ "") (hts : tsStr ≠ "") (hsecret : secret ≠ "")
    (hparse : jsParseInt tsStr = some n) :
    (maxAge < age →
       Webhook.verify payload (some sig) (some tsStr) secret opts now =
         Except.error (WebhookError.signature
           s!"Timestamp too old: {age}s ago (max: {maxAge}s)")) ∧
    (age < -maxAge →
       Webhook.verify payload (some sig) (some tsStr) secret opts now =
         Except.error (WebhookError.signature
           s!"Timestamp too far in future: {-age}s ahead (max: {maxAge}s)")) ∧
    (-maxAge ≤ age → age ≤ maxAge →
       ∀ m, Webhook.verify payload (some sig) (some tsStr) secret opts now =
         Except.error (WebhookError.signature m) →
       m = "Signature verification failed") := by
  subst hA
  subst hM
  refine ⟨?_, ?_, ?_⟩
  · intro hlt
    exact verify_freshness_error payload sig tsStr secret opts now n _ hsig hts hsecret hparse
      (freshnessCheck_too_old hmax hlt)
  · intro hlt
    exact verify_freshness_error payload sig tsStr secret opts now n _ hsig hts hsecret hparse
      (freshnessCheck_future hmax hlt)
  · intro h1 h2 m hv
    rw [verify_checks_pass payload sig tsStr secret opts now n hsig hts hsecret hparse
      (freshnessCheck_in_window h1 h2)] at hv
    by_cases hcmp : compareSignatures
        (hmacSha256Hex secret (tsStr ++ "." ++ canonicalPayloadString payload))
        (stripSigTag sig) = true
    · rw [if_pos hcmp] at hv
      exact absurd hv (postParse_ne_sig payload m)
    · rw [if_neg hcmp] at hv
      simp only [Except.error.injEq, WebhookError.signature.injEq] at hv
      exact hv.symm

/-- C3 witness: ages 301, −301 and the inclusive boundary 300 at concrete
inputs (`maxAgeSeconds = 300`). -/
theorem c3_witness :
    (Webhook.verify (WebhookPayloadArg.str "x") (some "sig") (some "1000") "s" {} 1301 =
       Except.error (WebhookError.signature "Timestamp too old: 301s ago (max: 300s)")) ∧
    (Webhook.verify (WebhookPayloadArg.str "x") (some "sig") (some "1000") "s" {} 699 =
       Except.error (WebhookError.signature
         "Timestamp too far in future: 301s ahead (max: 300s)")) ∧
    (∀ m, Webhook.verify (WebhookPayloadArg.str "x") (some "sig") (some "1000") "s" {} 1300 =
       Except.error (WebhookError.signature m) → m = "Signature verification failed") := by
  refine ⟨?_, ?_, ?_⟩
  · have h := (c3_freshnessBounds (WebhookPayloadArg.str "x") "sig" "1000" "s" {} 1301 1000
      300 301 rfl (by decide) (by decide) (by decide) (by decide) (by decide) (by decide)).1
      (by decide)
    rw [h]
    rfl
  · have h := (c3_freshnessBounds (WebhookPayloadArg.str "x") "sig" "1000" "s" {} 699 1000
      300 (-301) rfl (by decide) (by decide) (by decide) (by decide) (by decide) (by decide)).2.1
      (by decide)
    rw [h]
    rfl
  · exact fun m => ((c3_freshnessBounds (WebhookPayloadArg.str "x") "sig" "1000" "s" {} 1300
      1000 300 300 rfl (by decide) (by decide) (by decide) (by decide) (by decide) (by decide)).2.2
      (by decide) (by decide)) m

end NopeSdk
namespace NopeSdk

/-- C4: `maxAgeSeconds = 0` disables freshness checking entirely: the
verification outcome is independent of the clock (`now`), and no outcome is
ever a freshness rejection — every signature-error message is one of the
five non-freshness ones (missing signature, missing timestamp, empty
secret, unparseable timestamp, comparison failure). -/
theorem c4_maxAgeZero
    (payload : WebhookPayloadArg) (sig ts : Option String) (secret : String)
    (now1 now2 : Int) :
    Webhook.verify payload sig ts secret { maxAgeSeconds := some 0 } now1 =
      Webhook.verify payload sig ts secret { maxAgeSeconds := some 0 } now2 ∧
    (∀ m, Webhook.verify payload sig ts secret { maxAgeSeconds := some 0 } now1 =
        Except.error (WebhookError.signature m) →
      m = "Missing X-NOPE-Signature header" ∨ m = "Missing X-NOPE-Timestamp header" ∨
      m = "Webhook secret is required" ∨ m = "Invalid timestamp format" ∨
      m = "Signature verification failed") := by
  have hz : ∀ a b : Int,
      freshnessCheck (({ maxAgeSeconds := some 0 } : WebhookVerifyOptions).maxAgeSeconds.getD 300)
        a b = none :=
    fun a b => freshnessCheck_nonpos (by decide) a b
  constructor
  · by_cases h1 : sig.getD "" = ""
    · rw [verify_missing_sig _ _ _ _ _ _ h1, verify_missing_sig _ _ _ _ _ _ h1]
    by_cases h2 : ts.getD "" = ""
    · rw [verify_missing_ts _ _ _ _ _ _ h1 h2, verify_missing_ts _ _ _ _ _ _ h1 h2]
    by_cases h3 : secret = ""
    · rw [verify_empty_secret _ _ _ _ _ _ h1 h2 h3, verify_empty_secret _ _ _ _ _ _ h1 h2 h3]
    rw [option_eq_some_getD h1, option_eq_some_getD h2]
    cases hjp : jsParseInt (ts.getD "") with
    | none =>
      rw [verify_invalid_ts _ _ _ _ _ _ h1 h2 h3 hjp, verify_invalid_ts _ _ _ _ _ _ h1 h2 h3 hjp]
    | some n =>
      rw [verify_checks_pass _ _ _ _ _ _ n h1 h2 h3 hjp (hz now1 n),
        verify_checks_pass _ _ _ _ _ _ n h1 h2 h3 hjp (hz now2 n)]
  · intro m hv
    by_cases h1 : sig.getD "" = ""
    · rw [verify_missing_sig _ _ _ _ _ _ h1] at hv
      simp only [Except.error.injEq, WebhookError.signature.injEq] at hv
      exact Or.inl hv.symm
    by_cases h2 : ts.getD "" = ""
    · rw [verify_missing_ts _ _ _ _ _ _ h1 h2] at hv
      simp only [Except.error.injEq, WebhookError.signature.injEq] at hv
      exact Or.inr (Or.inl hv.symm)
    by_cases h3 : secret = ""
    · rw [verify_empty_secret _ _ _ _ _ _ h1 h2 h3] at hv
      simp only [Except.error.injEq, WebhookError.signature.injEq] at hv
      exact Or.inr (Or.inr (Or.inl hv.symm))
    rw [option_eq_some_getD h1, option_eq_some_getD h2] at hv
    cases hjp : jsParseInt (ts.getD "") with
    | none =>
      rw [verify_invalid_ts _ _ _ _ _ _ h1 h2 h3 hjp] at hv
      simp only [Except.error.injEq, WebhookError.signature.injEq] at hv
      exact Or.inr (Or.inr (Or.inr (Or.inl hv.symm)))
    | some n =>
      rw [verify_checks_pass _ _ _ _ _ _ n h1 h2 h3 hjp (hz now1 n)] at hv
      by_cases hcmp : compareSignatures
          (hmacSha256Hex secret ((ts.getD "") ++ "." ++ canonicalPayloadString payload))
          (stripSigTag (sig.getD "")) = true
      · rw [if_pos hcmp] at hv
        exact absurd hv (postParse_ne_sig payload m)
      · rw [if_neg hcmp] at hv
        simp only [Except.error.injEq, WebhookError.signature.injEq] at hv
        exact Or.inr (Or.inr (Or.inr (Or.inr hv.symm)))

/-- C4 witness: clock-independence across an extreme clock range. -/
theorem c4_witness :
    (Webhook.verify (WebhookPayloadArg.str "x") none (some "1000") "s"
        { maxAgeSeconds := some 0 } 99999999 =
      Webhook.verify (WebhookPayloadArg.str "x") none (some "1000") "s"
        { maxAgeSeconds := some 0 } (-99999999)) ∧
    ("Missing X-NOPE-Signature header" = "Missing X-NOPE-Signature header" ∨
      "Missing X-NOPE-Signature header" = "Missing X-NOPE-Timestamp header" ∨
      "Missing X-NOPE-Signature header" = "Webhook secret is required" ∨
      "Missing X-NOPE-Signature header" = "Invalid timestamp format" ∨
      "Missing X-NOPE-Signature header" = "Signature verification failed") :=
  ⟨(c4_maxAgeZero (WebhookPayloadArg.str "x") none (some "1000") "s" 99999999 (-99999999)).1,
   (c4_maxAgeZero (WebhookPayloadArg.str "x") none (some "1000") "s" 99999999 (-99999999)).2
     "Missing X-NOPE-Signature header" (by rfl)⟩

/-- C6: every failure of the steps 1–7 of `Webhook.verify` surfaces as the
single `WebhookError.signature` kind (`WebhookSignatureError`) with a
human-readable reason; missing signature, missing timestamp and empty
secret each independently produce their own descriptive message; and the
only non-`WebhookSignatureError` escape (`WebhookError.jsonSyntax`, from
the step-8 `JSON.parse`) can occur only after every one of the steps 1–7
has passed. -/
theorem c6_uniformErrors
    (payload : WebhookPayloadArg) (sig ts : Option String) (secret : String)
    (opts : WebhookVerifyOptions) (now : Int) :
    (sig.getD "" = "" →
       Webhook.verify payload sig ts secret opts now =
         Except.error (WebhookError.signature "Missing X-NOPE-Signature header")) ∧
    (sig.getD "" ≠ "" → ts.getD "" = "" →
       Webhook.verify payload sig ts secret opts now =
         Except.error (WebhookError.signature "Missing X-NOPE-Timestamp header")) ∧
    (sig.getD "" ≠ "" → ts.getD "" ≠ "" → secret = "" →
       Webhook.verify payload sig ts secret opts now =
         Except.error (WebhookError.signature "Webhook secret is required")) ∧
    (∀ m, Webhook.verify payload sig ts secret opts now =
        Except.error (WebhookError.jsonSyntax m) →
      ∃ s n, payload = WebhookPayloadArg.str s ∧ jsonParse s = none ∧
        sig.getD "" ≠ "" ∧ ts.getD "" ≠ "" ∧ secret ≠ "" ∧
        jsParseInt (ts.getD "") = some n ∧
        freshnessCheck (opts.maxAgeSeconds.getD 300) now n = none ∧
        compareSignatures (hmacSha256Hex secret ((ts.getD "") ++ "." ++ s))
          (stripSigTag (sig.getD "")) = true) := by
  refine ⟨verify_missing_sig payload sig ts secret opts now,
    verify_missing_ts payload sig ts secret opts now,
    verify_empty_secret payload sig ts secret opts now, ?_⟩
  intro m hv
  by_cases h1 : sig.getD "" = ""
  · rw [verify_missing_sig _ _ _ _ _ _ h1] at hv
    exact absurd hv (by simp)
  by_cases h2 : ts.getD "" = ""
  · rw [verify_missing_ts _ _ _ _ _ _ h1 h2] at hv
    exact absurd hv (by simp)
  by_cases h3 : secret = ""
  · rw [verify_empty_secret _ _ _ _ _ _ h1 h2 h3] at hv
    exact absurd hv (by simp)
  rw [option_eq_some_getD h1, option_eq_some_getD h2] at hv
  cases hjp : jsParseInt (ts.getD "") with
  | none =>
    rw [verify_invalid_ts _ _ _ _ _ _ h1 h2 h3 hjp] at hv
    exact absurd hv (by simp)
  | some n =>
    cases hfr : freshnessCheck (opts.maxAgeSeconds.getD 300) now n with
    | some fm =>
      rw [verify_freshness_error _ _ _ _ _ _ n fm h1 h2 h3 hjp hfr] at hv
      exact absurd hv (by simp)
    | none =>
      rw [verify_checks_pass _ _ _ _ _ _ n h1 h2 h3 hjp hfr] at hv
      by_cases hcmp : compareSignatures
          (hmacSha256Hex secret ((ts.getD "") ++ "." ++ canonicalPayloadString payload))
          (stripSigTag (sig.getD "")) = true
      · rw [if_pos hcmp] at hv
        cases payload with
        | obj v => exact absurd hv (by simp [postParse])
        | str s =>
          simp only [postParse] at hv
          cases hj : jsonParse s with
          | some v => rw [hj] at hv; exact absurd hv (by simp)
          | none =>
            exact ⟨s, n, rfl, hj, h1, h2, h3, rfl, hfr, by
              simpa only [canonicalPayloadString] using hcmp⟩
      · rw [if_neg hcmp] at hv
        exact absurd hv (by simp)

/-- C6 witness: the three missing-input messages at concrete inputs. -/
theorem c6_witness :
    (Webhook.verify (WebhookPayloadArg.str "x") none (some "1") "s" {} 0 =
       Except.error (WebhookError.signature "Missing X-NOPE-Signature header")) ∧
    (Webhook.verify (WebhookPayloadArg.str "x") (some "sig") none "s" {} 0 =
       Except.error (WebhookError.signature "Missing X-NOPE-Timestamp header")) ∧
    (Webhook.verify (WebhookPayloadArg.str "x") (some "sig") (some "1") "" {} 0 =
       Except.error (WebhookError.signature "Webhook secret is required")) :=
  ⟨(c6_uniformErrors (WebhookPayloadArg.str "x") none (some "1") "s" {} 0).1 rfl,
   (c6_uniformErrors (WebhookPayloadArg.str "x") (some "sig") none "s" {} 0).2.1
     (by decide) rfl,
   (c6_uniformErrors (WebhookPayloadArg.str "x") (some "sig") (some "1") "" {} 0).2.2.1
     (by decide) (by decide) rfl⟩

end NopeSdk
namespace NopeSdk

theorem utf8_eq_map_toNat {s : String} (h : ∀ c ∈ s.data, c.toNat < 128) :
    utf8 s = s.data.map Char.toNat :=
  utf8_ascii s.data h

/-- C7: for any two equal-length non-identical ASCII (hence any hex)
strings, the comparison step of `Webhook.verify` yields
`timingSafeEqual = ok false` and `compareSignatures = false`; for strings
of differing length `timingSafeEqual` throws but the error is caught inside
`compareSignatures`, which totally returns `false`; and whenever the
comparison returns `false` with all prior checks passing, `Webhook.verify`
rejects with the uniform `WebhookSignatureError`
`"Signature verification failed"` — no exception escapes the comparison. -/
theorem c7_comparisonTotality
    (expected received : String)
    (hexp : ∀ c ∈ expected.data, c.toNat < 128)
    (hrec : ∀ c ∈ received.data, c.toNat < 128) :
    (expected.data.length = received.data.length → expected ≠ received →
       timingSafeEqual (utf8 expected) (utf8 received) = Except.ok false ∧
       compareSignatures expected received = false) ∧
    (expected.data.length ≠ received.data.length →
       (∃ e, timingSafeEqual (utf8 expected) (utf8 received) = Except.error e) ∧
       compareSignatures expected received = false) ∧
    (∀ (payload : WebhookPayloadArg) (sig tsStr secret : String)
       (opts : WebhookVerifyOptions) (now n : Int),
       sig ≠ "" → tsStr ≠ "" → secret ≠ "" → jsParseInt tsStr = some n →
       freshnessCheck (opts.maxAgeSeconds.getD 300) now n = none →
       hmacSha256Hex secret (tsStr ++ "." ++ canonicalPayloadString payload) = expected →
       stripSigTag sig = received →
       compareSignatures expected received = false →
       Webhook.verify payload (some sig) (some tsStr) secret opts now =
         Except.error (WebhookError.signature "Signature verification failed")) := by
  have he := utf8_eq_map_toNat hexp
  have hr := utf8_eq_map_toNat hrec
  have hlen : (utf8 expected).length = expected.data.length := by
    rw [he, List.length_map]
  have hlenr : (utf8 received).length = received.data.length := by
    rw [hr, List.length_map]
  refine ⟨?_, ?_, ?_⟩
  · intro hl hne
    have hts : timingSafeEqual (utf8 expected) (utf8 received) = Except.ok false := by
      unfold timingSafeEqual
      rw [if_pos (by rw [hlen, hlenr]; exact hl)]
      congr 1
      simp only [decide_eq_false_iff_not]
      intro heq
      rw [he, hr] at heq
      exact hne (String.ext (map_toNat_inj heq))
    refine ⟨hts, ?_⟩
    unfold compareSignatures
    rw [hts]
  · intro hl
    have hts : timingSafeEqual (utf8 expected) (utf8 received) =
        Except.error "Input buffers must have the same byte length" := by
      unfold timingSafeEqual
      rw [if_neg (by rw [hlen, hlenr]; exact hl)]
    refine ⟨⟨_, hts⟩, ?_⟩
    unfold compareSignatures
    rw [hts]
  · intro payload sig tsStr secret opts now n hsig hts hsecret hparse hfresh hexp2 hstrip hcmp
    apply verify_mismatch payload sig tsStr secret opts now n hsig hts hsecret hparse hfresh
    rw [hexp2, hstrip]
    exact hcmp

/-- C7 witness: equal-length distinct pair and differing-length pair at
concrete hex-range strings. -/
theorem c7_witness :
    (timingSafeEqual (utf8 "ab") (utf8 "ba") = Except.ok false ∧
       compareSignatures "ab" "ba" = false) ∧
    ((∃ e, timingSafeEqual (utf8 "ab") (utf8 "abc") = Except.error e) ∧
       compareSignatures "ab" "abc" = false) :=
  ⟨(c7_comparisonTotality "ab" "ba" (by decide) (by decide)).1 (by decide) (by decide),
   (c7_comparisonTotality "ab" "abc" (by decide) (by decide)).2.1 (by decide)⟩

/-- C8: `NopeClient.evaluate` and `NopeClient.screen` reject with a local
validation error — before constructing any HTTP request (`ClientAction`
carries no request in that branch, so the underlying `fetch` is never
invoked) — when neither `messages` nor `text` is set, and likewise when
both are set; exactly one of the two being present is necessary and
sufficient to reach the single `POST` request. -/
theorem c8_localValidation (eopts : EvaluateOptions) (sopts : ScreenOptions) :
    (eopts.messages = none → eopts.text = none →
       NopeClient.evaluate eopts =
         ClientAction.localError "Either 'messages' or 'text' must be provided") ∧
    (eopts.messages ≠ none → eopts.text ≠ none →
       NopeClient.evaluate eopts =
         ClientAction.localError "Only one of 'messages' or 'text' can be provided, not both") ∧
    ((eopts.messages ≠ none ∧ eopts.text = none) ∨
     (eopts.messages = none ∧ eopts.text ≠ none) →
       ∃ body, NopeClient.evaluate eopts = ClientAction.request "POST" "/v1/evaluate" body) ∧
    (sopts.messages = none → sopts.text = none →
       NopeClient.screen sopts =
         ClientAction.localError "Either 'messages' or 'text' must be provided") ∧
    (sopts.messages ≠ none → sopts.text ≠ none →
       NopeClient.screen sopts =
         ClientAction.localError "Only one of 'messages' or 'text' can be provided, not both") ∧
    ((sopts.messages ≠ none ∧ sopts.text = none) ∨
     (sopts.messages = none ∧ sopts.text ≠ none) →
       ∃ body, NopeClient.screen sopts = ClientAction.request "POST" "/v1/screen" body) := by
  refine ⟨?_, ?_, ?_, ?_, ?_, ?_⟩
  · intro hm ht
    simp [NopeClient.evaluate, hm, ht]
  · intro hm ht
    obtain ⟨ms, hms⟩ := Option.ne_none_iff_exists'.mp hm
    obtain ⟨t, hts⟩ := Option.ne_none_iff_exists'.mp ht
    simp [NopeClient.evaluate, hms, hts]
  · intro hcase
    rcases hcase with ⟨hm, ht⟩ | ⟨hm, ht⟩
    · obtain ⟨ms, hms⟩ := Option.ne_none_iff_exists'.mp hm
      unfold NopeClient.evaluate
      rw [if_neg (by simp [hms]), if_neg (by simp [ht])]
      exact ⟨_, rfl⟩
    · obtain ⟨t, hts⟩ := Option.ne_none_iff_exists'.mp ht
      unfold NopeClient.evaluate
      rw [if_neg (by simp [hts]), if_neg (by simp [hm])]
      exact ⟨_, rfl⟩
  · intro hm ht
    simp [NopeClient.screen, hm, ht]
  · intro hm ht
    obtain ⟨ms, hms⟩ := Option.ne_none_iff_exists'.mp hm
    obtain ⟨t, hts⟩ := Option.ne_none_iff_exists'.mp ht
    simp [NopeClient.screen, hms, hts]
  · intro hcase
    rcases hcase with ⟨hm, ht⟩ | ⟨hm, ht⟩
    · obtain ⟨ms, hms⟩ := Option.ne_none_iff_exists'.mp hm
      unfold NopeClient.screen
      rw [if_neg (by simp [hms]), if_neg (by simp [ht])]
      exact ⟨_, rfl⟩
    · obtain ⟨t, hts⟩ := Option.ne_none_iff_exists'.mp ht
      unfold NopeClient.screen
      rw [if_neg (by simp [hts]), if_neg (by simp [hm])]
      exact ⟨_, rfl⟩

/-- C8 witness: both-absent, both-present and exactly-one at concrete options. -/
theorem c8_witness :
    NopeClient.evaluate {} =
      ClientAction.localError "Either 'messages' or 'text' must be provided" ∧
    NopeClient.screen { messages := some [], text := some "t" } =
      ClientAction.localError "Only one of 'messages' or 'text' can be provided, not both" ∧
    (∃ body, NopeClient.evaluate { text := some "hello" } =
      ClientAction.request "POST" "/v1/evaluate" body) :=
  ⟨(c8_localValidation {} {}).1 rfl rfl,
   (c8_localValidation {} { messages := some [], text := some "t" }).2.2.2.2.1
     (by simp) (by simp),
   (c8_localValidation { text := some "hello" } {}).2.2.1 (Or.inr ⟨rfl, by simp⟩)⟩

/-- C9: every HTTP 429 response maps to the rate-limit error
(`NopeErr.rateLimit`); a `Retry-After: 30` header makes the carried retry
interval 30000 milliseconds (header seconds × 1000), and with no
`Retry-After` header the error carries no retry interval. -/
theorem c9_rateLimitMapping (resp : JsResponse) (h429 : resp.status = 429) :
    NopeClient.handleResponse resp =
      Except.error (NopeErr.rateLimit (parseErrorMessage resp.body) (retryAfterMs resp)
        (some resp.body)) ∧
    (headersGet resp.headers "Retry-After" = some "30" → retryAfterMs resp = some 30000) ∧
    (headersGet resp.headers "Retry-After" = none → retryAfterMs resp = none) := by
  refine ⟨?_, ?_, ?_⟩
  · unfold NopeClient.handleResponse
    rw [if_neg (by simp [responseOk, h429]), if_neg (by omega), if_neg (by omega),
      if_pos h429]
  · intro h
    unfold retryAfterMs
    rw [h]
    show (if ("30" : String) = "" then none
      else Option.map (fun q => q * 1000) (jsParseFloatVal "30")) = some 30000
    rw [if_neg (by decide : ¬("30" : String) = ""),
      show jsParseFloatVal "30" = some 30 from by decide]
    show some ((30 : Rat) * 1000) = some 30000
    norm_num
  · intro h
    unfold retryAfterMs
    rw [h]

/-- C9 witness: concrete 429 responses with and without `Retry-After: 30`. -/
theorem c9_witness :
    (NopeClient.handleResponse ⟨429, [("Retry-After", "30")], "rate limited"⟩ =
       Except.error (NopeErr.rateLimit
         (parseErrorMessage "rate limited")
         (retryAfterMs ⟨429, [("Retry-After", "30")], "rate limited"⟩)
         (some "rate limited"))) ∧
    retryAfterMs ⟨429, [("Retry-After", "30")], "rate limited"⟩ = some 30000 ∧
    retryAfterMs ⟨429, [], "rate limited"⟩ = none :=
  ⟨(c9_rateLimitMapping ⟨429, [("Retry-After", "30")], "rate limited"⟩ rfl).1,
   (c9_rateLimitMapping ⟨429, [("Retry-After", "30")], "rate limited"⟩ rfl).2.1 (by decide),
   (c9_rateLimitMapping ⟨429, [], "rate limited"⟩ rfl).2.2 rfl⟩

end NopeSdk
